import Mathlib

/-!
Shallow embedding of `rawread.py` (the `Device` class and its four
operations) together with theorems checking the specification's claims.

The device handle is modelled as an explicit state (`DevState`): the byte
contents of the medium, the current position, the set of positions at which
a read raises `IOError` (bad sectors), and a log of the seek/write calls
issued to the handle.  A read past the end of the medium returns a short
(possibly empty) byte string, as for a Python file object; a write that
would run past the end of the medium raises `IOError`, as on a raw block
device.  Exceptions are modelled with `Option`/`Bool` flags: `none` (or a
`false` first component) means the Python code raised `IOError` at that
point and the exception propagates to the caller.

The two unbounded Python loops (`get_contents`'s read loop and
`_erase_sectors`'s write loop) advance the position by a full sector on
every iteration that continues, and stop as soon as a read returns a short
sector or a write fails, which happens at the latest when the position
reaches the end of the medium.  Hence both loops perform at most
`data.length / 512 + 1` iterations; they are written with an explicit fuel
argument of `data.length + 1`, which is strictly larger, so the
out-of-fuel branch is unreachable and the functions agree with the
unbounded source loops.
-/

/-- The signature k621.de as bytes (`NOFS_SIGNATURE`). -/
def NOFS_SIGNATURE : List Nat := [107, 54, 50, 49, 46, 100, 101]

/-- The 11-byte `NOFS_HEADER`: signature plus four zero reserved bytes. -/
def NOFS_HEADER : List Nat := NOFS_SIGNATURE ++ [0, 0, 0, 0]

/-- The terminal byte `NOFS_TERMINAL = 0x03`. -/
def NOFS_TERMINAL : Nat := 0x03

/-- The sector size `NOFS_SECTOR_SIZE = 512`. -/
def NOFS_SECTOR_SIZE : Nat := 512

/-- The 512-byte first sector written by `_write_header`:
`NOFS_HEADER + NOFS_TERMINAL + 0xFF * (512 - len(NOFS_HEADER) - 1)`. -/
def NOFS_FIRST_SECTOR : List Nat :=
  NOFS_HEADER ++ [NOFS_TERMINAL] ++
    List.replicate (NOFS_SECTOR_SIZE - NOFS_HEADER.length - 1) 0xFF

/-- The byte pattern an erased sector carries: one `NOFS_TERMINAL` followed
by 511 bytes of `0xFF` (the two writes of one `_erase_sectors` iteration). -/
def ERASED_SECTOR : List Nat := NOFS_TERMINAL :: List.replicate (NOFS_SECTOR_SIZE - 1) 0xFF

/-- One event on the device handle: a `seek(target)` call or a successful
`write` of the given bytes at the given position. -/
inductive Ev where
  | seek (target : Nat)
  | write (pos : Nat) (bytes : List Nat)
deriving DecidableEq

/-- The state of the open device handle. -/
structure DevState where
  /-- the bytes on the medium; its length is the medium's capacity -/
  data : List Nat
  /-- current file position -/
  pos : Nat
  /-- positions at which a read raises `IOError` (bad sectors) -/
  badReads : List Nat
  /-- seeks and successful writes issued so far, oldest first -/
  log : List Ev
deriving DecidableEq

/-- Model of `handle.seek(p)`. -/
def DevState.seekTo (s : DevState) (p : Nat) : DevState :=
  { s with pos := p, log := s.log ++ [Ev.seek p] }

/-- Overwrite `l` at position `p` with `bs` (used by `writeBytes`). -/
def splice (l : List Nat) (p : Nat) (bs : List Nat) : List Nat :=
  l.take p ++ bs ++ l.drop (p + bs.length)

/-- Model of `handle.read(n)`: returns the (at most `n`) bytes from the current
position and advances the position; raises `IOError` (`none`) when the
current position is a bad-read position.  A read at or past the end of the
medium returns a short or empty byte string, not an error. -/
def DevState.readBytes (s : DevState) (n : Nat) : Option (List Nat × DevState) :=
  if s.badReads.contains s.pos then none
  else
    let bs := (s.data.drop s.pos).take n
    some (bs, { s with pos := s.pos + bs.length })

/-- Model of `handle.write(bs)`: overwrites in place and advances the position;
raises `IOError` (`none`) when the write would run past the end of the
medium. -/
def DevState.writeBytes (s : DevState) (bs : List Nat) : Option DevState :=
  if s.pos + bs.length ≤ s.data.length then
    some { s with data := splice s.data s.pos bs, pos := s.pos + bs.length,
                  log := s.log ++ [Ev.write s.pos bs] }
  else none

/-- The `Device` object: handle plus the instance attributes
`valid_nofs`, `_force_operations` and `sectors_read`. -/
structure Device where
  handle : DevState
  valid_nofs : Bool
  force_operations : Bool
  sectors_read : Option Nat
deriving DecidableEq

/-- Model of the constructor: open the path (a fresh handle on the given medium
contents), probe `len(NOFS_SIGNATURE)` bytes, set `valid_nofs` by comparing
with the signature, seek back to 0.  `none` models `IOError` from the
probe read propagating out of the constructor. -/
def Device.init (data badReads : List Nat) (force : Bool) : Option Device :=
  let s0 : DevState := { data := data, pos := 0, badReads := badReads, log := [] }
  match s0.readBytes NOFS_SIGNATURE.length with
  | none => none
  | some r =>
    some { handle := r.2.seekTo 0, valid_nofs := r.1 == NOFS_SIGNATURE,
           force_operations := force, sectors_read := none }

/-- The `while not eof` read loop of `get_contents`.  `t` is the terminal
byte, `acc` the accumulated result, `cnt` the running `sectors_read`.
On `IOError` the loop breaks without counting the sector.  The fuel is
never exhausted when called with `data.length + 1` (see the header
comment). -/
def readLoop (fuel : Nat) (t : Nat) (s : DevState) (acc : List Nat) (cnt : Nat) :
    List Nat × Nat × DevState :=
  match fuel with
  | 0 => (acc, cnt, s)
  | fuel + 1 =>
    match s.readBytes NOFS_SECTOR_SIZE with
    | none => (acc, cnt, s)
    | some r =>
      let sector := r.1
      let eof := (sector.length != NOFS_SECTOR_SIZE) || sector.contains t
      let sector := if sector.contains t then sector.takeWhile (fun b => b != t) else sector
      let acc := acc ++ sector
      let cnt := cnt + 1
      if eof then (acc, cnt, r.2) else readLoop fuel t r.2 acc cnt

/-- Model of `get_contents`.  First component `none` models the `IOError`
raised by the uncaught header-skipping read propagating to the caller; the
second component is the device object after the call (its mutations
persist even when the exception propagates). -/
def Device.get_contents (d : Device) : Option (List Nat) × Device :=
  let s0 := d.handle.seekTo 0
  -- self.sectors_read = 0 happens before the header-skipping read
  if d.valid_nofs then
    match s0.readBytes NOFS_HEADER.length with
    | none => (none, { d with handle := s0, sectors_read := some 0 })
    | some r =>
      let t := readLoop (d.handle.data.length + 1) NOFS_TERMINAL r.2 [] 0
      (some t.1, { d with handle := t.2.2, sectors_read := some t.2.1 })
  else
    let t := readLoop (d.handle.data.length + 1) 0 s0 [] 0
    (some t.1, { d with handle := t.2.2, sectors_read := some t.2.1 })

/-- The `while not eof` write loop of `_erase_sectors`: write one terminal
byte then 511 fill bytes; only when `count >= 0`, decrement it and stop
once it hits zero; on `IOError` stop with `count` as it stands.  The fuel
is never exhausted when called with `data.length + 1`. -/
def eraseLoop (fuel : Nat) (count : Int) (s : DevState) : Int × DevState :=
  match fuel with
  | 0 => (count, s)
  | fuel + 1 =>
    match s.writeBytes [NOFS_TERMINAL] with
    | none => (count, s)
    | some s1 =>
      match s1.writeBytes (List.replicate (NOFS_SECTOR_SIZE - 1) 0xFF) with
      | none => (count, s1)
      | some s2 =>
        if 0 ≤ count then
          let count := count - 1
          if count = 0 then (count, s2) else eraseLoop fuel count s2
        else eraseLoop fuel count s2

/-- Model of the private sector-erasing method (the Python default is
`start = 0`; callers that rely on it pass `0` explicitly here).  Returns
`count <= 0` and the handle state after the loop. -/
def Device.erase_sectors (s : DevState) (count : Int) (start : Nat) : Bool × DevState :=
  let r := eraseLoop (s.data.length + 1) count (s.seekTo (start * NOFS_SECTOR_SIZE))
  (decide (r.1 ≤ 0), r.2)

/-- Model of the private header-writing method: seek to 0 and write
`NOFS_FIRST_SECTOR`.
First component `false` models the uncaught `IOError` from the write. -/
def Device.write_header (s : DevState) : Bool × DevState :=
  let s0 := s.seekTo 0
  match s0.writeBytes NOFS_FIRST_SECTOR with
  | none => (false, s0)
  | some s1 => (true, s1)

/-- Model of `erase(complete)`.  First component: `some b` is the returned
boolean, `none` models an uncaught `IOError` propagating (from the
establishing `get_contents` pass or from `_write_header`). -/
def Device.erase (d : Device) (complete : Bool) : Option Bool × Device :=
  if !(d.valid_nofs || d.force_operations) then (some false, d)
  else
    -- if self.sectors_read == None and not complete: self.get_contents()
    let pass := d.sectors_read.isNone && !complete
    let gc := Device.get_contents d
    let d1 := if pass then gc.2 else d
    if pass && gc.1.isNone then (none, d1)
    else
      -- self._erase_sectors(self.sectors_read if not complete else -1)
      let count : Int := if complete then -1 else (d1.sectors_read.getD 0 : Nat)
      let es := Device.erase_sectors d1.handle count 0
      let d2 := { d1 with handle := es.2 }
      if es.1 && d2.valid_nofs then
        let wh := Device.write_header d2.handle
        if wh.1 then (some true, { d2 with handle := wh.2 })
        else (none, { d2 with handle := wh.2 })
      else (some es.1, d2)

/-- Model of `initialize_nofs`: refuse when a NoFS is already present or
force is not set; otherwise erase four sectors starting at sector 1
(the boolean result is discarded), write the header and return `True`.
`none` models the uncaught `IOError` from `_write_header`. -/
def Device.initialize_nofs (d : Device) : Option Bool × Device :=
  if d.valid_nofs then (some false, d)
  else if !d.force_operations then (some false, d)
  else
    let es := Device.erase_sectors d.handle 4 1
    let wh := Device.write_header es.2
    if wh.1 then (some true, { d with handle := wh.2 })
    else (none, { d with handle := wh.2 })

/-- The write events issued by `n` successful iterations of the
`_erase_sectors` loop starting at position `p`. -/
def eraseEvents (p : Nat) : Nat → List Ev
  | 0 => []
  | n + 1 =>
    Ev.write p [NOFS_TERMINAL] ::
      Ev.write (p + 1) (List.replicate (NOFS_SECTOR_SIZE - 1) 0xFF) ::
        eraseEvents (p + NOFS_SECTOR_SIZE) n

/-! ### Concrete devices used to evaluate the claims on explicit inputs -/

/-- A medium holding exactly the 512-byte first sector (the Header of the
spec) followed by one payload sector: hello, then 0x03, then 506 bytes of
0xFF. -/
def devC1data : List Nat :=
  NOFS_FIRST_SECTOR ++ ([104, 101, 108, 108, 111] ++ [NOFS_TERMINAL] ++ List.replicate 506 0xFF)

/-- The device obtained by constructing on `devC1data` (signature matches,
so `valid_nofs` is true; the probe leaves `seek 0` in the log). -/
def devC1 : Device := ⟨⟨devC1data, 0, [], [Ev.seek 0]⟩, true, false, none⟩

/-- A tiny non-NoFS medium, neither valid nor forced. -/
def devC2 : Device := ⟨⟨[5, 6, 7], 2, [], []⟩, false, false, none⟩

/-- A forced non-NoFS one-sector device with a 0x00 at offset 1, so a
`get_contents` pass records `sectors_read = 1`. -/
def devC3 : Device := ⟨⟨65 :: 0 :: List.replicate 510 66, 0, [], []⟩, false, true, none⟩

/-- A forced non-NoFS two-sector device with a 0x00 at offset 1. -/
def devC3w : Device := ⟨⟨65 :: 0 :: List.replicate 1022 66, 0, [], []⟩, false, true, none⟩

/-- A non-NoFS medium consisting of one sector filled with 0xFF. -/
def devC4data : List Nat := List.replicate 512 0xFF

/-- The device obtained by constructing on `devC4data` (no signature, so
`valid_nofs` is false). -/
def devC4 : Device := ⟨⟨devC4data, 0, [], [Ev.seek 0]⟩, false, false, none⟩

/-- A valid NoFS device: first sector is the Header, second holds junk. -/
def devC6 : Device := ⟨⟨NOFS_FIRST_SECTOR ++ List.replicate 512 65, 0, [], []⟩, true, false, none⟩

/-- A forced non-NoFS two-sector device of zero bytes. -/
def devC6w : Device := ⟨⟨List.replicate 1024 0, 0, [], []⟩, false, true, none⟩

/-- A forced non-NoFS two-sector device whose position 0 is a bad read, so
the first sector read of a `get_contents` pass raises `IOError`. -/
def devC9a : Device := ⟨⟨List.replicate 1024 7, 0, [0], []⟩, false, true, none⟩

/-- A forced device on an empty medium: every write fails. -/
def devC10 : Device := ⟨⟨[], 0, [], []⟩, false, true, none⟩

/-- A forced non-NoFS one-sector device: the sector-erase step of
`initialize_nofs` (which starts at sector 1) fails entirely, while the
header write at offset 0 succeeds. -/
def devC10w : Device := ⟨⟨List.replicate 512 9, 0, [], []⟩, false, true, none⟩

/-- A fresh forced non-formatted two-sector device of zero bytes. -/
def devC5w : Device := ⟨⟨List.replicate 1024 0, 0, [], []⟩, false, true, none⟩

set_option maxRecDepth 400000

/-! ### Basic facts about the byte-level primitives -/

theorem NOFS_FIRST_SECTOR_length : NOFS_FIRST_SECTOR.length = 512 := by decide

theorem ERASED_SECTOR_length : ERASED_SECTOR.length = 512 := by decide

theorem NOFS_HEADER_length : NOFS_HEADER.length = 11 := by decide

theorem splice_length {l bs : List Nat} {p : Nat} (h : p + bs.length ≤ l.length) :
    (splice l p bs).length = l.length := by
  simp only [splice, List.length_append, List.length_take, List.length_drop]
  omega

theorem splice_nil (l : List Nat) (p : Nat) : splice l p [] = l := by
  simp [splice]

theorem splice_zero (l bs : List Nat) : splice l 0 bs = bs ++ l.drop bs.length := by
  simp [splice]

theorem splice_full {l bs : List Nat} (h : bs.length = l.length) :
    splice l 0 bs = bs := by
  simp [splice, h, List.drop_length]

theorem take_splice {l bs : List Nat} {p : Nat} (h : p + bs.length ≤ l.length) :
    (splice l p bs).take (p + bs.length) = l.take p ++ bs := by
  have hlen2 : (l.take p ++ bs).length = p + bs.length := by
    simp only [List.length_append, List.length_take]
    omega
  rw [splice, ← hlen2, List.take_left]

theorem drop_splice {l bs : List Nat} {p : Nat} (h : p + bs.length ≤ l.length) :
    (splice l p bs).drop (p + bs.length) = l.drop (p + bs.length) := by
  have hlen2 : (l.take p ++ bs).length = p + bs.length := by
    simp only [List.length_append, List.length_take]
    omega
  rw [splice]
  conv_lhs => rw [← hlen2]
  rw [List.drop_left, hlen2]

theorem splice_splice {l bs cs : List Nat} {p : Nat} (h : p + bs.length ≤ l.length) :
    splice (splice l p bs) (p + bs.length) cs = splice l p (bs ++ cs) := by
  conv_lhs => rw [splice]
  rw [take_splice h, ← List.drop_drop, drop_splice h, List.drop_drop]
  rw [splice, List.length_append]
  simp [List.append_assoc, Nat.add_assoc]

theorem flatten_replicate_succ (n : Nat) (l : List Nat) :
    (List.replicate (n + 1) l).flatten = l ++ (List.replicate n l).flatten := by
  simp [List.replicate_succ]

theorem flatten_replicate_length (n : Nat) (l : List Nat) :
    ((List.replicate n l).flatten).length = n * l.length := by
  induction n with
  | zero => simp
  | succ n ih => simp [flatten_replicate_succ, ih, Nat.succ_mul]; omega

theorem DevState.writeBytes_eq_some {s : DevState} {bs : List Nat}
    (h : s.pos + bs.length ≤ s.data.length) :
    s.writeBytes bs = some { s with data := splice s.data s.pos bs, pos := s.pos + bs.length,
                                    log := s.log ++ [Ev.write s.pos bs] } := by
  simp [DevState.writeBytes, h]

theorem DevState.writeBytes_eq_none {s : DevState} {bs : List Nat}
    (h : ¬ s.pos + bs.length ≤ s.data.length) :
    s.writeBytes bs = none := by
  simp [DevState.writeBytes, h]

theorem DevState.writeBytes_pres {s s' : DevState} {bs : List Nat}
    (h : s.writeBytes bs = some s') :
    s'.data.length = s.data.length ∧ s'.badReads = s.badReads ∧
      s'.pos = s.pos + bs.length ∧ s.pos + bs.length ≤ s.data.length := by
  unfold DevState.writeBytes at h
  split at h
  · cases h
    refine ⟨splice_length (by omega), rfl, rfl, by omega⟩
  · cases h

/-- One erased sector as the two writes of an `_erase_sectors` iteration. -/
theorem erased_sector_eq :
    [NOFS_TERMINAL] ++ List.replicate (NOFS_SECTOR_SIZE - 1) 0xFF = ERASED_SECTOR := rfl

theorem eraseLoop_pres : ∀ (fuel : Nat) (count : Int) (s : DevState),
    (eraseLoop fuel count s).2.data.length = s.data.length ∧
      (eraseLoop fuel count s).2.badReads = s.badReads := by
  intro fuel
  induction fuel with
  | zero => intro count s; simp [eraseLoop]
  | succ fuel ih =>
    intro count s
    rw [eraseLoop]
    cases h1 : s.writeBytes [NOFS_TERMINAL] with
    | none => simp
    | some s1 =>
      obtain ⟨e1, e2, _, _⟩ := DevState.writeBytes_pres h1
      cases h2 : s1.writeBytes (List.replicate (NOFS_SECTOR_SIZE - 1) 0xFF) with
      | none => simp only [h2]; exact ⟨e1, e2⟩
      | some s2 =>
        obtain ⟨f1, f2, _, _⟩ := DevState.writeBytes_pres h2
        simp only [h2]
        by_cases hc : (0 : Int) ≤ count
        · simp only [hc, if_true]
          by_cases hz : count - 1 = 0
          · simp only [hz, if_true]
            exact ⟨by rw [f1, e1], by rw [f2, e2]⟩
          · simp only [hz, if_false]
            obtain ⟨g1, g2⟩ := ih (count - 1) s2
            exact ⟨by rw [g1, f1, e1], by rw [g2, f2, e2]⟩
        · simp only [hc, if_false]
          obtain ⟨g1, g2⟩ := ih count s2
          exact ⟨by rw [g1, f1, e1], by rw [g2, f2, e2]⟩

theorem eraseLoop_neg : ∀ (m : Nat) (count : Int) (fuel : Nat) (dat br : List Nat)
    (lg : List Ev) (p : Nat), count ≤ 0 → m ≤ fuel → dat.length = p + 512 * m →
    ∃ c', eraseLoop fuel count ⟨dat, p, br, lg⟩ =
        (c', ⟨splice dat p ((List.replicate m ERASED_SECTOR).flatten), p + 512 * m, br,
              lg ++ eraseEvents p m⟩) ∧ c' ≤ 0 := by
  intro m
  induction m with
  | zero =>
    intro count fuel dat br lg p hc _ hlen
    refine ⟨count, ?_, hc⟩
    have hfail : (⟨dat, p, br, lg⟩ : DevState).writeBytes [NOFS_TERMINAL] = none := by
      apply DevState.writeBytes_eq_none
      simp only [List.length_cons, List.length_nil]
      omega
    cases fuel with
    | zero => simp [eraseLoop, splice_nil, eraseEvents]
    | succ fuel => rw [eraseLoop]; rw [hfail]; simp [splice_nil, eraseEvents]
  | succ m ih =>
    intro count fuel dat br lg p hc hfuel hlen
    obtain ⟨fuel, rfl⟩ : ∃ f, fuel = f + 1 := ⟨fuel - 1, by omega⟩
    have hw1 : (⟨dat, p, br, lg⟩ : DevState).writeBytes [NOFS_TERMINAL] =
        some ⟨splice dat p [NOFS_TERMINAL], p + 1, br, lg ++ [Ev.write p [NOFS_TERMINAL]]⟩ := by
      simp only [DevState.writeBytes, List.length_cons, List.length_nil, Nat.zero_add]
      rw [if_pos (by omega)]
    have hlen1 : (splice dat p [NOFS_TERMINAL]).length = dat.length :=
      splice_length (by simp only [List.length_cons, List.length_nil]; omega)
    have hd : splice (splice dat p [NOFS_TERMINAL]) (p + 1)
        (List.replicate (NOFS_SECTOR_SIZE - 1) 0xFF) = splice dat p ERASED_SECTOR := by
      rw [show p + 1 = p + ([NOFS_TERMINAL] : List Nat).length by simp,
          splice_splice (by simp only [List.length_cons, List.length_nil]; omega),
          erased_sector_eq]
    have hw2 : (⟨splice dat p [NOFS_TERMINAL], p + 1, br,
          lg ++ [Ev.write p [NOFS_TERMINAL]]⟩ : DevState).writeBytes
          (List.replicate (NOFS_SECTOR_SIZE - 1) 0xFF) =
        some ⟨splice dat p ERASED_SECTOR, p + 512, br,
              lg ++ [Ev.write p [NOFS_TERMINAL],
                     Ev.write (p + 1) (List.replicate (NOFS_SECTOR_SIZE - 1) 0xFF)]⟩ := by
      simp only [DevState.writeBytes, List.length_replicate, hlen1]
      rw [if_pos (by simp only [NOFS_SECTOR_SIZE]; omega)]
      simp only [hd, Option.some.injEq, DevState.mk.injEq, List.append_assoc,
        List.cons_append, List.nil_append, eq_self_iff_true, and_true, true_and]
      simp only [NOFS_SECTOR_SIZE]
    rw [eraseLoop]
    simp only [hw1, hw2]
    have hstep : ∀ c2 : Int, c2 ≤ 0 →
        ∃ c', eraseLoop fuel c2 ⟨splice dat p ERASED_SECTOR, p + 512, br,
            lg ++ [Ev.write p [NOFS_TERMINAL],
                   Ev.write (p + 1) (List.replicate (NOFS_SECTOR_SIZE - 1) 0xFF)]⟩ =
          (c', ⟨splice dat p ((List.replicate (m + 1) ERASED_SECTOR).flatten),
                p + 512 * (m + 1), br, lg ++ eraseEvents p (m + 1)⟩) ∧ c' ≤ 0 := by
      intro c2 hc2
      obtain ⟨c', heq, hle⟩ := ih c2 fuel (splice dat p ERASED_SECTOR) br
        (lg ++ [Ev.write p [NOFS_TERMINAL],
                Ev.write (p + 1) (List.replicate (NOFS_SECTOR_SIZE - 1) 0xFF)])
        (p + 512) hc2 (by omega)
        (by rw [splice_length (by rw [ERASED_SECTOR_length]; omega)]; omega)
      refine ⟨c', ?_, hle⟩
      rw [heq]
      have hs : splice (splice dat p ERASED_SECTOR) (p + 512)
          ((List.replicate m ERASED_SECTOR).flatten) =
          splice dat p ((List.replicate (m + 1) ERASED_SECTOR).flatten) := by
        rw [show p + 512 = p + ERASED_SECTOR.length by rw [ERASED_SECTOR_length],
            splice_splice (by rw [ERASED_SECTOR_length]; omega), ← flatten_replicate_succ]
      rw [hs]
      have hev : (lg ++ [Ev.write p [NOFS_TERMINAL],
            Ev.write (p + 1) (List.replicate (NOFS_SECTOR_SIZE - 1) 0xFF)]) ++
            eraseEvents (p + 512) m = lg ++ eraseEvents p (m + 1) := by
        rw [eraseEvents, List.append_assoc]
        norm_num [NOFS_SECTOR_SIZE]
      rw [hev, show p + 512 + 512 * m = p + 512 * (m + 1) by omega]
    by_cases hc0 : count = 0
    · subst hc0
      norm_num
      obtain ⟨c', heq, hle⟩ := hstep (-1) (by omega)
      exact ⟨c', heq, hle⟩
    · have hlt : ¬ (0 : Int) ≤ count := by omega
      simp only [hlt, if_false]
      exact hstep count hc

theorem eraseLoop_pos : ∀ (n : Nat) (fuel : Nat) (dat br : List Nat) (lg : List Ev) (p : Nat),
    1 ≤ n → n ≤ fuel → p + 512 * n ≤ dat.length →
    eraseLoop fuel (n : Int) ⟨dat, p, br, lg⟩ =
      (0, ⟨splice dat p ((List.replicate n ERASED_SECTOR).flatten), p + 512 * n, br,
           lg ++ eraseEvents p n⟩) := by
  intro n
  induction n with
  | zero => intro fuel dat br lg p h1; exact absurd h1 (by omega)
  | succ n ih =>
    intro fuel dat br lg p _ hfuel hlen
    obtain ⟨fuel, rfl⟩ : ∃ f, fuel = f + 1 := ⟨fuel - 1, by omega⟩
    have hw1 : (⟨dat, p, br, lg⟩ : DevState).writeBytes [NOFS_TERMINAL] =
        some ⟨splice dat p [NOFS_TERMINAL], p + 1, br, lg ++ [Ev.write p [NOFS_TERMINAL]]⟩ := by
      simp only [DevState.writeBytes, List.length_cons, List.length_nil, Nat.zero_add]
      rw [if_pos (by omega)]
    have hlen1 : (splice dat p [NOFS_TERMINAL]).length = dat.length :=
      splice_length (by simp only [List.length_cons, List.length_nil]; omega)
    have hd : splice (splice dat p [NOFS_TERMINAL]) (p + 1)
        (List.replicate (NOFS_SECTOR_SIZE - 1) 0xFF) = splice dat p ERASED_SECTOR := by
      rw [show p + 1 = p + ([NOFS_TERMINAL] : List Nat).length by simp,
          splice_splice (by simp only [List.length_cons, List.length_nil]; omega),
          erased_sector_eq]
    have hw2 : (⟨splice dat p [NOFS_TERMINAL], p + 1, br,
          lg ++ [Ev.write p [NOFS_TERMINAL]]⟩ : DevState).writeBytes
          (List.replicate (NOFS_SECTOR_SIZE - 1) 0xFF) =
        some ⟨splice dat p ERASED_SECTOR, p + 512, br,
              lg ++ [Ev.write p [NOFS_TERMINAL],
                     Ev.write (p + 1) (List.replicate (NOFS_SECTOR_SIZE - 1) 0xFF)]⟩ := by
      simp only [DevState.writeBytes, List.length_replicate, hlen1]
      rw [if_pos (by simp only [NOFS_SECTOR_SIZE]; omega)]
      simp only [hd, Option.some.injEq, DevState.mk.injEq, List.append_assoc,
        List.cons_append, List.nil_append, eq_self_iff_true, and_true, true_and]
      simp only [NOFS_SECTOR_SIZE]
    rw [eraseLoop]
    simp only [hw1, hw2]
    rw [if_pos (by positivity)]
    by_cases hn : n = 0
    · subst hn
      rw [if_pos (by norm_num)]
      have hfl : ((List.replicate 1 ERASED_SECTOR).flatten) = ERASED_SECTOR := by simp
      have hev : eraseEvents p 1 = [Ev.write p [NOFS_TERMINAL],
          Ev.write (p + 1) (List.replicate (NOFS_SECTOR_SIZE - 1) 0xFF)] := by
        simp [eraseEvents]
      rw [hfl, hev, show p + 512 * 1 = p + 512 by omega]
      simp
    · have hsub : ((n + 1 : Nat) : Int) - 1 = (n : Int) := by push_cast; ring
      rw [hsub, if_neg (by exact_mod_cast hn)]
      rw [ih fuel (splice dat p ERASED_SECTOR) br
        (lg ++ [Ev.write p [NOFS_TERMINAL],
                Ev.write (p + 1) (List.replicate (NOFS_SECTOR_SIZE - 1) 0xFF)])
        (p + 512) (by omega) (by omega)
        (by rw [splice_length (by rw [ERASED_SECTOR_length]; omega)]; omega)]
      have hs : splice (splice dat p ERASED_SECTOR) (p + 512)
          ((List.replicate n ERASED_SECTOR).flatten) =
          splice dat p ((List.replicate (n + 1) ERASED_SECTOR).flatten) := by
        rw [show p + 512 = p + ERASED_SECTOR.length by rw [ERASED_SECTOR_length],
            splice_splice (by rw [ERASED_SECTOR_length]; omega), ← flatten_replicate_succ]
      have hev : (lg ++ [Ev.write p [NOFS_TERMINAL],
            Ev.write (p + 1) (List.replicate (NOFS_SECTOR_SIZE - 1) 0xFF)]) ++
            eraseEvents (p + 512) n = lg ++ eraseEvents p (n + 1) := by
        rw [eraseEvents, List.append_assoc]
        norm_num [NOFS_SECTOR_SIZE]
      rw [hs, hev, show p + 512 + 512 * n = p + 512 * (n + 1) by omega]

theorem erase_sectors_pres (s : DevState) (count : Int) (start : Nat) :
    (Device.erase_sectors s count start).2.data.length = s.data.length ∧
      (Device.erase_sectors s count start).2.badReads = s.badReads := by
  unfold Device.erase_sectors
  exact eraseLoop_pres (s.data.length + 1) count (s.seekTo (start * NOFS_SECTOR_SIZE))

/-- A full or zero-count erase from sector 0 on a `512 * k`-byte medium
covers the whole medium and reports success. -/
theorem erase_sectors_fill (s : DevState) (count : Int) (k : Nat)
    (hc : count ≤ 0) (hlen : s.data.length = 512 * k) :
    Device.erase_sectors s count 0 =
      (true, ⟨(List.replicate k ERASED_SECTOR).flatten, 512 * k, s.badReads,
              s.log ++ Ev.seek 0 :: eraseEvents 0 k⟩) := by
  unfold Device.erase_sectors
  have hseek : s.seekTo (0 * NOFS_SECTOR_SIZE) = ⟨s.data, 0, s.badReads, s.log ++ [Ev.seek 0]⟩ := by
    simp [DevState.seekTo, NOFS_SECTOR_SIZE]
  rw [hseek]
  obtain ⟨c', heq, hle⟩ := eraseLoop_neg k count (s.data.length + 1) s.data s.badReads
    (s.log ++ [Ev.seek 0]) 0 hc (by omega) (by omega)
  rw [heq]
  have hflat : ((List.replicate k ERASED_SECTOR).flatten).length = s.data.length := by
    rw [flatten_replicate_length, ERASED_SECTOR_length, hlen]; ring
  rw [splice_full hflat]
  simp [List.append_assoc, decide_eq_true hle]

/-- An exact-count erase of `n` whole sectors from sector 0. -/
theorem erase_sectors_count (s : DevState) (n : Nat)
    (h1 : 1 ≤ n) (h2 : 512 * n ≤ s.data.length) :
    Device.erase_sectors s (n : Int) 0 =
      (true, ⟨(List.replicate n ERASED_SECTOR).flatten ++ s.data.drop (512 * n), 512 * n,
              s.badReads, s.log ++ Ev.seek 0 :: eraseEvents 0 n⟩) := by
  unfold Device.erase_sectors
  have hseek : s.seekTo (0 * NOFS_SECTOR_SIZE) = ⟨s.data, 0, s.badReads, s.log ++ [Ev.seek 0]⟩ := by
    simp [DevState.seekTo, NOFS_SECTOR_SIZE]
  rw [hseek]
  rw [eraseLoop_pos n (s.data.length + 1) s.data s.badReads (s.log ++ [Ev.seek 0]) 0 h1
    (by omega) (by omega)]
  have hflat : ((List.replicate n ERASED_SECTOR).flatten).length = 512 * n := by
    rw [flatten_replicate_length, ERASED_SECTOR_length]; ring
  rw [splice_zero, hflat]
  simp [List.append_assoc]

theorem Device.write_header_of_le (s : DevState) (h : 512 ≤ s.data.length) :
    Device.write_header s =
      (true, ⟨NOFS_FIRST_SECTOR ++ s.data.drop 512, 512, s.badReads,
              s.log ++ [Ev.seek 0, Ev.write 0 NOFS_FIRST_SECTOR]⟩) := by
  unfold Device.write_header
  have hseek : s.seekTo 0 = ⟨s.data, 0, s.badReads, s.log ++ [Ev.seek 0]⟩ := by
    simp [DevState.seekTo]
  rw [hseek]
  have hw : (⟨s.data, 0, s.badReads, s.log ++ [Ev.seek 0]⟩ : DevState).writeBytes
      NOFS_FIRST_SECTOR =
      some ⟨NOFS_FIRST_SECTOR ++ s.data.drop 512, 512, s.badReads,
            s.log ++ [Ev.seek 0, Ev.write 0 NOFS_FIRST_SECTOR]⟩ := by
    simp only [DevState.writeBytes, NOFS_FIRST_SECTOR_length, Nat.zero_add]
    rw [if_pos (by omega)]
    rw [show splice s.data 0 NOFS_FIRST_SECTOR =
        NOFS_FIRST_SECTOR ++ s.data.drop 512 from by
      rw [splice_zero, NOFS_FIRST_SECTOR_length]]
    simp
  simp only [hw]

theorem DevState.readBytes_eq_some (s : DevState) (n : Nat)
    (h : s.badReads.contains s.pos = false) :
    s.readBytes n = some ((s.data.drop s.pos).take n,
      { s with pos := s.pos + ((s.data.drop s.pos).take n).length }) := by
  have h' : s.pos ∉ s.badReads := by simpa using h
  simp [DevState.readBytes, h']

theorem DevState.readBytes_pres {s : DevState} {n : Nat} {r : List Nat × DevState}
    (h : s.readBytes n = some r) :
    r.2.data = s.data ∧ r.2.badReads = s.badReads ∧ r.2.log = s.log := by
  unfold DevState.readBytes at h
  split at h
  · cases h
  · cases h; exact ⟨rfl, rfl, rfl⟩

theorem readLoop_pres : ∀ (fuel t : Nat) (s : DevState) (acc : List Nat) (cnt : Nat),
    (readLoop fuel t s acc cnt).2.2.data = s.data ∧
      (readLoop fuel t s acc cnt).2.2.badReads = s.badReads ∧
      (readLoop fuel t s acc cnt).2.2.log = s.log := by
  intro fuel
  induction fuel with
  | zero => intro t s acc cnt; simp [readLoop]
  | succ fuel ih =>
    intro t s acc cnt
    rw [readLoop]
    cases hr : s.readBytes NOFS_SECTOR_SIZE with
    | none => simp
    | some r =>
      have hp := DevState.readBytes_pres hr
      simp only [hr]
      by_cases he : ((r.1.length != NOFS_SECTOR_SIZE) || r.1.contains t) = true
      · simp only [he, if_true]
        exact hp
      · simp only [he, if_false]
        obtain ⟨i1, i2, i3⟩ := ih t r.2
          (acc ++ if r.1.contains t then r.1.takeWhile (fun b => b != t) else r.1) (cnt + 1)
        exact ⟨i1.trans hp.1, i2.trans hp.2.1, i3.trans hp.2.2⟩

theorem readLoop_cnt_ge : ∀ (fuel t : Nat) (s : DevState) (acc : List Nat) (cnt : Nat),
    cnt ≤ (readLoop fuel t s acc cnt).2.1 := by
  intro fuel
  induction fuel with
  | zero => intro t s acc cnt; simp [readLoop]
  | succ fuel ih =>
    intro t s acc cnt
    rw [readLoop]
    cases hr : s.readBytes NOFS_SECTOR_SIZE with
    | none => simp
    | some r =>
      simp only [hr]
      by_cases he : ((r.1.length != NOFS_SECTOR_SIZE) || r.1.contains t) = true
      · simp only [he, if_true]; omega
      · simp only [he, if_false]
        exact le_trans (by omega) (ih t r.2
          (acc ++ if r.1.contains t then r.1.takeWhile (fun b => b != t) else r.1) (cnt + 1))

theorem readLoop_cnt_pos (fuel t : Nat) (s : DevState) (acc : List Nat) (cnt : Nat)
    (hbr : s.badReads = []) (hf : 1 ≤ fuel) :
    cnt + 1 ≤ (readLoop fuel t s acc cnt).2.1 := by
  obtain ⟨fuel, rfl⟩ : ∃ f, fuel = f + 1 := ⟨fuel - 1, by omega⟩
  rw [readLoop]
  rw [DevState.readBytes_eq_some s NOFS_SECTOR_SIZE (by simp [hbr])]
  by_cases he : ((((s.data.drop s.pos).take NOFS_SECTOR_SIZE).length != NOFS_SECTOR_SIZE)
      || ((s.data.drop s.pos).take NOFS_SECTOR_SIZE).contains t) = true
  · simp only [he, if_true]; omega
  · simp only [he, if_false]
    exact readLoop_cnt_ge fuel t _ _ (cnt + 1)

theorem readLoop_congr : ∀ (fuel t : Nat) (dat : List Nat) (p : Nat) (br : List Nat)
    (lg lg' : List Ev) (acc : List Nat) (cnt : Nat),
    (readLoop fuel t ⟨dat, p, br, lg⟩ acc cnt).1 =
      (readLoop fuel t ⟨dat, p, br, lg'⟩ acc cnt).1 ∧
    (readLoop fuel t ⟨dat, p, br, lg⟩ acc cnt).2.1 =
      (readLoop fuel t ⟨dat, p, br, lg'⟩ acc cnt).2.1 := by
  intro fuel
  induction fuel with
  | zero => intro t dat p br lg lg' acc cnt; simp [readLoop]
  | succ fuel ih =>
    intro t dat p br lg lg' acc cnt
    rw [readLoop, readLoop]
    by_cases hb : br.contains p = true
    · have hb' : p ∈ br := by simpa using hb
      have h1 : (⟨dat, p, br, lg⟩ : DevState).readBytes NOFS_SECTOR_SIZE = none := by
        simp [DevState.readBytes, hb']
      have h2 : (⟨dat, p, br, lg'⟩ : DevState).readBytes NOFS_SECTOR_SIZE = none := by
        simp [DevState.readBytes, hb']
      rw [h1, h2]
      exact ⟨by trivial, by trivial⟩
    · have hbf : br.contains p = false := by simpa using hb
      rw [DevState.readBytes_eq_some ⟨dat, p, br, lg⟩ NOFS_SECTOR_SIZE hbf,
          DevState.readBytes_eq_some ⟨dat, p, br, lg'⟩ NOFS_SECTOR_SIZE hbf]
      by_cases he : ((((dat.drop p).take NOFS_SECTOR_SIZE).length != NOFS_SECTOR_SIZE)
          || ((dat.drop p).take NOFS_SECTOR_SIZE).contains t) = true
      · simp only [he, if_true]
        exact ⟨by trivial, by trivial⟩
      · simp only [he, if_false]
        exact ih t dat (p + ((dat.drop p).take NOFS_SECTOR_SIZE).length) br lg lg' _ _

/-- Unfolding of `get_contents` on a non-NoFS device. -/
theorem Device.get_contents_false (dat : List Nat) (p0 : Nat) (br : List Nat) (lg : List Ev)
    (f : Bool) (sr : Option Nat) :
    Device.get_contents ⟨⟨dat, p0, br, lg⟩, false, f, sr⟩ =
      (some (readLoop (dat.length + 1) 0 ⟨dat, 0, br, lg ++ [Ev.seek 0]⟩ [] 0).1,
       ⟨(readLoop (dat.length + 1) 0 ⟨dat, 0, br, lg ++ [Ev.seek 0]⟩ [] 0).2.2, false, f,
        some (readLoop (dat.length + 1) 0 ⟨dat, 0, br, lg ++ [Ev.seek 0]⟩ [] 0).2.1⟩) := by
  simp [Device.get_contents, DevState.seekTo]

/-- Unfolding of `get_contents` on a NoFS device whose header-skipping read
raises `IOError`: the exception propagates with `sectors_read` left at 0. -/
theorem Device.get_contents_true_fail (dat : List Nat) (p0 : Nat) (br : List Nat) (lg : List Ev)
    (f : Bool) (sr : Option Nat) (hb : (0 : Nat) ∈ br) :
    Device.get_contents ⟨⟨dat, p0, br, lg⟩, true, f, sr⟩ =
      (none, ⟨⟨dat, 0, br, lg ++ [Ev.seek 0]⟩, true, f, some 0⟩) := by
  simp [Device.get_contents, DevState.seekTo, DevState.readBytes, hb]

/-- Unfolding of `get_contents` on a NoFS device whose header-skipping read
succeeds. -/
theorem Device.get_contents_true_ok (dat : List Nat) (p0 : Nat) (br : List Nat) (lg : List Ev)
    (f : Bool) (sr : Option Nat) (hb : (0 : Nat) ∉ br) :
    Device.get_contents ⟨⟨dat, p0, br, lg⟩, true, f, sr⟩ =
      (some (readLoop (dat.length + 1) NOFS_TERMINAL
          ⟨dat, (dat.take NOFS_HEADER.length).length, br, lg ++ [Ev.seek 0]⟩ [] 0).1,
       ⟨(readLoop (dat.length + 1) NOFS_TERMINAL
          ⟨dat, (dat.take NOFS_HEADER.length).length, br, lg ++ [Ev.seek 0]⟩ [] 0).2.2,
        true, f,
        some (readLoop (dat.length + 1) NOFS_TERMINAL
          ⟨dat, (dat.take NOFS_HEADER.length).length, br, lg ++ [Ev.seek 0]⟩ [] 0).2.1⟩) := by
  simp [Device.get_contents, DevState.seekTo, DevState.readBytes, hb]

theorem DevState.ext_pos {s : DevState} {dat br : List Nat} {lg : List Ev}
    (h1 : s.data = dat) (h2 : s.badReads = br) (h3 : s.log = lg) :
    s = ⟨dat, s.pos, br, lg⟩ := by
  cases s
  simp_all

/-- After any `get_contents` call the device keeps its data, bad positions,
flags; the log grows by exactly the `seek(0)`; `sectors_read` is set. -/
theorem Device.get_contents_state (d : Device) :
    ∃ p n, (Device.get_contents d).2 =
      ⟨⟨d.handle.data, p, d.handle.badReads, d.handle.log ++ [Ev.seek 0]⟩,
       d.valid_nofs, d.force_operations, some n⟩ := by
  obtain ⟨⟨dat, p0, br, lg⟩, v, f, sr⟩ := d
  cases v with
  | false =>
    obtain ⟨r1, r2, r3⟩ := readLoop_pres (dat.length + 1) 0 ⟨dat, 0, br, lg ++ [Ev.seek 0]⟩ [] 0
    refine ⟨(readLoop (dat.length + 1) 0 ⟨dat, 0, br, lg ++ [Ev.seek 0]⟩ [] 0).2.2.pos,
            (readLoop (dat.length + 1) 0 ⟨dat, 0, br, lg ++ [Ev.seek 0]⟩ [] 0).2.1, ?_⟩
    rw [Device.get_contents_false]
    rw [DevState.ext_pos r1 r2 r3]
  | true =>
    by_cases hb : (0 : Nat) ∈ br
    · exact ⟨0, 0, by rw [Device.get_contents_true_fail dat p0 br lg f sr hb]⟩
    · obtain ⟨r1, r2, r3⟩ := readLoop_pres (dat.length + 1) NOFS_TERMINAL
        ⟨dat, (dat.take NOFS_HEADER.length).length, br, lg ++ [Ev.seek 0]⟩ [] 0
      refine ⟨(readLoop (dat.length + 1) NOFS_TERMINAL
          ⟨dat, (dat.take NOFS_HEADER.length).length, br, lg ++ [Ev.seek 0]⟩ [] 0).2.2.pos,
        (readLoop (dat.length + 1) NOFS_TERMINAL
          ⟨dat, (dat.take NOFS_HEADER.length).length, br, lg ++ [Ev.seek 0]⟩ [] 0).2.1, ?_⟩
      rw [Device.get_contents_true_ok dat p0 br lg f sr hb]
      rw [DevState.ext_pos r1 r2 r3]

/-- The bytes returned by `get_contents` and the recorded `sectors_read`
depend only on the medium contents, the bad positions and `valid_nofs` —
not on the handle position, the log, or a previous `sectors_read`. -/
theorem Device.get_contents_congr (dat : List Nat) (p0 p0' : Nat) (br : List Nat)
    (lg lg' : List Ev) (v f : Bool) (sr sr' : Option Nat) :
    (Device.get_contents ⟨⟨dat, p0, br, lg⟩, v, f, sr⟩).1 =
      (Device.get_contents ⟨⟨dat, p0', br, lg'⟩, v, f, sr'⟩).1 ∧
    (Device.get_contents ⟨⟨dat, p0, br, lg⟩, v, f, sr⟩).2.sectors_read =
      (Device.get_contents ⟨⟨dat, p0', br, lg'⟩, v, f, sr'⟩).2.sectors_read := by
  cases v with
  | false =>
    rw [Device.get_contents_false, Device.get_contents_false]
    obtain ⟨c1, c2⟩ := readLoop_congr (dat.length + 1) 0 dat 0 br (lg ++ [Ev.seek 0])
      (lg' ++ [Ev.seek 0]) [] 0
    exact ⟨by rw [c1], by simp only; rw [c2]⟩
  | true =>
    by_cases hb : (0 : Nat) ∈ br
    · rw [Device.get_contents_true_fail dat p0 br lg f sr hb,
          Device.get_contents_true_fail dat p0' br lg' f sr' hb]
      exact ⟨rfl, rfl⟩
    · rw [Device.get_contents_true_ok dat p0 br lg f sr hb,
          Device.get_contents_true_ok dat p0' br lg' f sr' hb]
      obtain ⟨c1, c2⟩ := readLoop_congr (dat.length + 1) NOFS_TERMINAL dat
        ((dat.take NOFS_HEADER.length).length) br (lg ++ [Ev.seek 0]) (lg' ++ [Ev.seek 0]) [] 0
      exact ⟨by rw [c1], by simp only; rw [c2]⟩

/-- On a device with no bad positions `get_contents` raises no `IOError`. -/
theorem Device.get_contents_ok (d : Device) (h : d.handle.badReads = []) :
    ∃ bs, (Device.get_contents d).1 = some bs := by
  obtain ⟨⟨dat, p0, br, lg⟩, v, f, sr⟩ := d
  dsimp only at h
  subst h
  cases v with
  | false => rw [Device.get_contents_false]; exact ⟨_, rfl⟩
  | true =>
    rw [Device.get_contents_true_ok dat p0 [] lg f sr (by simp)]
    exact ⟨_, rfl⟩

/-- On a device with no bad positions `get_contents` always counts at least
one sector (even the empty final read is counted). -/
theorem Device.get_contents_sr_pos (d : Device) (h : d.handle.badReads = []) :
    ∃ n, (Device.get_contents d).2.sectors_read = some n ∧ 1 ≤ n := by
  obtain ⟨⟨dat, p0, br, lg⟩, v, f, sr⟩ := d
  dsimp only at h
  subst h
  cases v with
  | false =>
    rw [Device.get_contents_false]
    refine ⟨_, rfl, ?_⟩
    have := readLoop_cnt_pos (dat.length + 1) 0 ⟨dat, 0, [], lg ++ [Ev.seek 0]⟩ [] 0 rfl
      (by omega)
    simpa using this
  | true =>
    rw [Device.get_contents_true_ok dat p0 [] lg f sr (by simp)]
    refine ⟨_, rfl, ?_⟩
    have := readLoop_cnt_pos (dat.length + 1) NOFS_TERMINAL
      ⟨dat, (dat.take NOFS_HEADER.length).length, [], lg ++ [Ev.seek 0]⟩ [] 0 rfl (by omega)
    simpa using this

/-- On a clean device whose bytes start with the freshly written first
sector, `get_contents` returns the empty payload and counts one sector:
the skipped prefix is only `len(NOFS_HEADER) = 11` bytes, so the first
payload sector starts at the header's terminal byte. -/
theorem Device.get_contents_of_header (X : List Nat) (p0 : Nat) (lg : List Ev)
    (f : Bool) (sr : Option Nat) :
    (Device.get_contents ⟨⟨NOFS_FIRST_SECTOR ++ X, p0, [], lg⟩, true, f, sr⟩).1 = some [] ∧
    (Device.get_contents ⟨⟨NOFS_FIRST_SECTOR ++ X, p0, [], lg⟩, true, f, sr⟩).2.sectors_read
      = some 1 := by
  rw [Device.get_contents_true_ok _ _ [] _ _ _ (by simp)]
  have hlen : (NOFS_FIRST_SECTOR ++ X).length = 512 + X.length := by
    simp [NOFS_FIRST_SECTOR_length]
  have hpos : ((NOFS_FIRST_SECTOR ++ X).take NOFS_HEADER.length).length = 11 := by
    simp only [List.length_take, NOFS_HEADER_length, hlen]
    omega
  rw [hpos]
  have hdrop11 : NOFS_FIRST_SECTOR.drop 11 = NOFS_TERMINAL :: List.replicate 500 0xFF := by
    decide
  have hdat : (NOFS_FIRST_SECTOR ++ X).drop 11 =
      NOFS_TERMINAL :: (List.replicate 500 0xFF ++ X) := by
    rw [List.drop_append_eq_append_drop, hdrop11, NOFS_FIRST_SECTOR_length]
    norm_num
  have hsec : ((NOFS_FIRST_SECTOR ++ X).drop 11).take NOFS_SECTOR_SIZE =
      NOFS_TERMINAL :: (List.replicate 500 0xFF ++ X).take 511 := by
    rw [hdat]
    simp [NOFS_SECTOR_SIZE]
  have hread := DevState.readBytes_eq_some
    ⟨NOFS_FIRST_SECTOR ++ X, 11, [], lg ++ [Ev.seek 0]⟩ NOFS_SECTOR_SIZE (by simp)
  rw [hsec] at hread
  have hcontains : (NOFS_TERMINAL :: (List.replicate 500 0xFF ++ X).take 511).contains
      NOFS_TERMINAL = true := by simp
  have htw : (NOFS_TERMINAL :: (List.replicate 500 0xFF ++ X).take 511).takeWhile
      (fun b => b != NOFS_TERMINAL) = [] := by simp
  rw [readLoop]
  rw [hread]
  simp only [hcontains, htw, Bool.or_true, if_true, List.append_nil, List.nil_append]
  exact ⟨by trivial, by trivial⟩

/-! ### Claim theorems -/

/-- C1 (counterexample): on the device whose bytes are exactly the 512-byte
Header sector followed by the payload sector hello / 0x03 / 0xFF * 506,
`get_contents()` does not return the bytes of hello: the code skips only the
11-byte `NOFS_HEADER` (signature + reserved), not the header's terminal
byte at offset 11, so the scan stops immediately. -/
theorem C1_counterexample :
    devC1.valid_nofs = true ∧ Device.init devC1data [] false = some devC1 ∧
    (Device.get_contents devC1).1 ≠ some [104, 101, 108, 108, 111] := by decide

/-- C1 (amended): on that device `get_contents()` returns exactly the empty
byte string
(the header's own terminal byte at offset 11 ends the payload scan at
once), and afterwards `sectors_read` equals 1. -/
theorem C1_amended :
    (Device.get_contents devC1).1 = some [] ∧
    (Device.get_contents devC1).2.sectors_read = some 1 := by decide

/-- C2: on a device with `valid_nofs` false and force false, `erase`
returns `false` having performed no seek and no write of any kind — the
returned device state (including the handle's position and event log) is
the input state, unchanged. -/
theorem C2_erase_gate (d : Device) (c : Bool)
    (h1 : d.valid_nofs = false) (h2 : d.force_operations = false) :
    Device.erase d c = (some false, d) := by
  simp [Device.erase, h1, h2]

theorem C2_witness :
    devC2.valid_nofs = false ∧ devC2.force_operations = false ∧
      Device.erase devC2 true = (some false, devC2) ∧
      Device.erase devC2 false = (some false, devC2) :=
  ⟨rfl, rfl, C2_erase_gate devC2 true rfl rfl, C2_erase_gate devC2 false rfl rfl⟩

/-- C4 (code evaluation at the failing input): a non-NoFS device consisting
of one sector of 0xFF.  The docstring (and the claim) say reading stops at
the first 0x00 or 0xFF, which would give an empty result; the code uses only
`chr(0x00)` as the end marker for non-NoFS devices, so it returns all 512
0xFF bytes and counts 2 sectors (the full sector plus the empty EOF
read). -/
theorem C4_code_eval :
    Device.init devC4data [] false = some devC4 ∧
    (Device.get_contents devC4).1 = some (List.replicate 512 0xFF) ∧
    (Device.get_contents devC4).2.sectors_read = some 2 := by decide

/-- C7: calling `get_contents` twice with no intervening write returns
byte-identical results and leaves `sectors_read` with the identical value
after each call (reads never modify the medium in this model, so any two
consecutive calls see the same bytes). -/
theorem C7_idempotent_read (d : Device) :
    (Device.get_contents (Device.get_contents d).2).1 = (Device.get_contents d).1 ∧
    (Device.get_contents (Device.get_contents d).2).2.sectors_read =
      (Device.get_contents d).2.sectors_read := by
  obtain ⟨⟨dat, p0, br, lg⟩, v, f, sr⟩ := d
  obtain ⟨p1, n1, hst⟩ := Device.get_contents_state ⟨⟨dat, p0, br, lg⟩, v, f, sr⟩
  dsimp only at hst
  rw [hst]
  obtain ⟨c1, c2⟩ := Device.get_contents_congr dat p1 p0 br (lg ++ [Ev.seek 0]) lg v f (some n1) sr
  exact ⟨c1, c2.trans (congrArg Device.sectors_read hst)⟩

/-- C8: `valid_nofs` is assigned at construction and no subsequent
operation — `get_contents`, `erase` (either mode), or `initialize_nofs`
(including a successful one, which does not set it to true) — ever changes
it. -/
theorem C8_valid_format_stable (d : Device) (complete : Bool) :
    (Device.get_contents d).2.valid_nofs = d.valid_nofs ∧
    (Device.erase d complete).2.valid_nofs = d.valid_nofs ∧
    (Device.initialize_nofs d).2.valid_nofs = d.valid_nofs := by
  have hg : (Device.get_contents d).2.valid_nofs = d.valid_nofs := by
    obtain ⟨p, n, hst⟩ := Device.get_contents_state d
    rw [hst]
  refine ⟨hg, ?_, ?_⟩
  · unfold Device.erase
    split_ifs <;> simp_all <;> try (split_ifs <;> simp_all)
  · unfold Device.initialize_nofs
    split_ifs <;> simp_all
    split_ifs <;> simp_all

/-- C3 (counterexample): a forced non-NoFS one-sector device with a 0x00 at
offset 1 and `sectors_read` unset.  `erase(complete=False)` is permitted;
the establishing pass records one sector; but the overwrite then seeks to
offset 0 — not to the payload offset — as the event log shows, and sector
0 (not sector 1) is overwritten. -/
theorem C3_counterexample :
    devC3.force_operations = true ∧ devC3.sectors_read = none ∧
    (Device.erase devC3 false).1 = some true ∧
    (Device.erase devC3 false).2.handle.log =
      [Ev.seek 0, Ev.seek 0, Ev.write 0 [NOFS_TERMINAL],
       Ev.write 1 (List.replicate 511 0xFF)] ∧
    (Device.erase devC3 false).2.handle.data ≠ 65 :: 0 :: List.replicate 510 66 := by decide

/-- C6 (counterexample): a valid NoFS two-sector device.  After a
successful `erase(complete=True)` the first sector read in isolation is
the rewritten Header (`erase` rewrites it whenever `valid_nofs` is true),
not the erased pattern `0x03 + 0xFF * 511`. -/
theorem C6_counterexample :
    devC6.valid_nofs = true ∧ (Device.erase devC6 true).1 = some true ∧
    (Device.erase devC6 true).2.handle.data.take 512 ≠ ERASED_SECTOR := by decide

/-- C10 (counterexample): a forced non-formatted device on an empty medium
satisfies both preconditions of `initialize_nofs`, yet the call does not
return true — the header write fails and the `IOError` propagates. -/
theorem C10_counterexample :
    devC10.valid_nofs = false ∧ devC10.force_operations = true ∧
    (Device.initialize_nofs devC10).1 = none ∧
    (Device.initialize_nofs devC10).1 ≠ some true := by decide

/-- Unfolding of `erase` when permitted and no establishing `get_contents`
pass is needed (`complete` is true, or `sectors_read` is already set). -/
theorem Device.erase_unfold_nopass (d : Device) (complete : Bool)
    (hgate : d.valid_nofs = true ∨ d.force_operations = true)
    (hnopass : (d.sectors_read.isNone && !complete) = false) :
    Device.erase d complete =
      (let count : Int := if complete then -1 else (d.sectors_read.getD 0 : Nat)
       let es := Device.erase_sectors d.handle count 0
       let d2 : Device := { d with handle := es.2 }
       if es.1 && d2.valid_nofs then
         let wh := Device.write_header d2.handle
         if wh.1 then (some true, { d2 with handle := wh.2 })
         else (none, { d2 with handle := wh.2 })
       else (some es.1, d2)) := by
  unfold Device.erase
  rcases hgate with h | h <;> simp [h, hnopass]

/-- Unfolding of `erase(complete=False)` when permitted, `sectors_read` is
unset, and the establishing `get_contents` pass raises no `IOError`. -/
theorem Device.erase_unfold_pass (d : Device)
    (hgate : d.valid_nofs = true ∨ d.force_operations = true)
    (hsr : d.sectors_read = none)
    (hok : (Device.get_contents d).1.isNone = false) :
    Device.erase d false =
      (let d1 := (Device.get_contents d).2
       let count : Int := (d1.sectors_read.getD 0 : Nat)
       let es := Device.erase_sectors d1.handle count 0
       let d2 : Device := { d1 with handle := es.2 }
       if es.1 && d2.valid_nofs then
         let wh := Device.write_header d2.handle
         if wh.1 then (some true, { d2 with handle := wh.2 })
         else (none, { d2 with handle := wh.2 })
       else (some es.1, d2)) := by
  unfold Device.erase
  rcases hgate with h | h <;> simp [h, hsr, hok]

/-- C6 (amended): after a successful `erase(complete=True)` on a permitted
whole-sector device, every sector holds the self-terminating pattern
`0x03 + 0xFF * 511` — except the first sector, which holds the pattern
only on a forced non-NoFS device; on a `valid_nofs` device the successful
erase rewrites the Header at offset 0, so the first sector read in
isolation is the Header. -/
theorem C6_amended (d : Device) (k : Nat) (hk : 1 ≤ k)
    (hlen : d.handle.data.length = 512 * k)
    (hvf : d.valid_nofs = true ∨ d.force_operations = true) :
    (Device.erase d true).1 = some true ∧
    (Device.erase d true).2.handle.data =
      (if d.valid_nofs then
        NOFS_FIRST_SECTOR ++ (List.replicate (k - 1) ERASED_SECTOR).flatten
       else (List.replicate k ERASED_SECTOR).flatten) := by
  rw [Device.erase_unfold_nopass d true hvf (by simp)]
  have hfill := erase_sectors_fill d.handle (-1) k (by omega) hlen
  simp only [if_true, hfill]
  obtain ⟨k', rfl⟩ : ∃ k', k = k' + 1 := ⟨k - 1, by omega⟩
  have hflatlen : ((List.replicate (k' + 1) ERASED_SECTOR).flatten).length = 512 * (k' + 1) := by
    rw [flatten_replicate_length, ERASED_SECTOR_length]; ring
  have hwh := Device.write_header_of_le
    ⟨(List.replicate (k' + 1) ERASED_SECTOR).flatten, 512 * (k' + 1), d.handle.badReads,
     d.handle.log ++ Ev.seek 0 :: eraseEvents 0 (k' + 1)⟩
    (by simp only [hflatlen]; omega)
  have hdrop : ((List.replicate (k' + 1) ERASED_SECTOR).flatten).drop 512 =
      (List.replicate k' ERASED_SECTOR).flatten := by
    rw [flatten_replicate_succ, ← ERASED_SECTOR_length, List.drop_left]
  cases hv : d.valid_nofs with
  | true =>
    simp only [Bool.true_and, Bool.and_true, if_true, hwh]
    simp only [hdrop, Nat.add_sub_cancel]
    exact ⟨by trivial, by trivial⟩
  | false =>
    simp only [Bool.true_and, Bool.and_false, if_false]
    exact ⟨by trivial, by trivial⟩

theorem C6_witness :
    1 ≤ 2 ∧ devC6w.handle.data.length = 512 * 2 ∧ devC6w.force_operations = true ∧
    (Device.erase devC6w true).1 = some true ∧
    (Device.erase devC6w true).2.handle.data =
      (if devC6w.valid_nofs then
        NOFS_FIRST_SECTOR ++ (List.replicate (2 - 1) ERASED_SECTOR).flatten
       else (List.replicate 2 ERASED_SECTOR).flatten) :=
  ⟨by decide, by decide, rfl,
   (C6_amended devC6w 2 (by decide) (by decide) (Or.inr rfl)).1,
   (C6_amended devC6w 2 (by decide) (by decide) (Or.inr rfl)).2⟩

/-- C9: when `erase(complete=False)` is permitted and runs with
`sectors_read = 0` (no new `get_contents` pass happens, since 0 is not
`None`), the loop receives count 0, decrements it to −1 on the first
iteration without ever setting its stop flag, and overwrites every sector
from offset 0 until the end-of-medium write failure; the erase returns
true.  The event log records a single `seek(0)` followed by the writes of
all `k` sectors (then the Header rewrite on a `valid_nofs` device). -/
theorem C9_zero_count_erase (d : Device) (k : Nat)
    (hvf : d.valid_nofs = true ∨ d.force_operations = true)
    (hsr : d.sectors_read = some 0)
    (hlen : d.handle.data.length = 512 * k) (hk : 1 ≤ k) :
    (Device.erase d false).1 = some true ∧
    (Device.erase d false).2.handle.data =
      (if d.valid_nofs then
        NOFS_FIRST_SECTOR ++ (List.replicate (k - 1) ERASED_SECTOR).flatten
       else (List.replicate k ERASED_SECTOR).flatten) ∧
    (Device.erase d false).2.handle.log =
      d.handle.log ++ Ev.seek 0 :: (eraseEvents 0 k ++
        (if d.valid_nofs then [Ev.seek 0, Ev.write 0 NOFS_FIRST_SECTOR] else [])) := by
  rw [Device.erase_unfold_nopass d false hvf (by simp [hsr])]
  have hfill := erase_sectors_fill d.handle ((0 : Nat) : Int) k (by omega) hlen
  simp only [Bool.false_eq_true, if_false, hsr, Option.getD_some, hfill, Bool.true_and]
  obtain ⟨k', rfl⟩ : ∃ k', k = k' + 1 := ⟨k - 1, by omega⟩
  have hflatlen : ((List.replicate (k' + 1) ERASED_SECTOR).flatten).length = 512 * (k' + 1) := by
    rw [flatten_replicate_length, ERASED_SECTOR_length]; ring
  have hwh := Device.write_header_of_le
    ⟨(List.replicate (k' + 1) ERASED_SECTOR).flatten, 512 * (k' + 1), d.handle.badReads,
     d.handle.log ++ Ev.seek 0 :: eraseEvents 0 (k' + 1)⟩
    (by simp only [hflatlen]; omega)
  have hdrop : ((List.replicate (k' + 1) ERASED_SECTOR).flatten).drop 512 =
      (List.replicate k' ERASED_SECTOR).flatten := by
    rw [flatten_replicate_succ, ← ERASED_SECTOR_length, List.drop_left]
  cases hv : d.valid_nofs with
  | true =>
    simp only [eq_self_iff_true, if_true, hwh]
    simp only [hdrop, Nat.add_sub_cancel]
    refine ⟨by trivial, by trivial, ?_⟩
    simp [List.append_assoc]
  | false =>
    simp only [Bool.false_eq_true, if_false]
    refine ⟨by trivial, by trivial, ?_⟩
    simp [List.append_assoc]

theorem C9_witness :
    (Device.get_contents devC9a).2.sectors_read = some 0 ∧
    (Device.get_contents devC9a).2.force_operations = true ∧
    (Device.erase (Device.get_contents devC9a).2 false).1 = some true ∧
    (Device.erase (Device.get_contents devC9a).2 false).2.handle.data =
      (if (Device.get_contents devC9a).2.valid_nofs then
        NOFS_FIRST_SECTOR ++ (List.replicate (2 - 1) ERASED_SECTOR).flatten
       else (List.replicate 2 ERASED_SECTOR).flatten) ∧
    (Device.erase (Device.get_contents devC9a).2 false).2.handle.log =
      (Device.get_contents devC9a).2.handle.log ++ Ev.seek 0 :: (eraseEvents 0 2 ++
        (if (Device.get_contents devC9a).2.valid_nofs then
          [Ev.seek 0, Ev.write 0 NOFS_FIRST_SECTOR] else [])) :=
  ⟨by decide, by decide,
   (C9_zero_count_erase (Device.get_contents devC9a).2 2 (Or.inr (by decide)) (by decide)
     (by decide) (by decide)).1,
   (C9_zero_count_erase (Device.get_contents devC9a).2 2 (Or.inr (by decide)) (by decide)
     (by decide) (by decide)).2.1,
   (C9_zero_count_erase (Device.get_contents devC9a).2 2 (Or.inr (by decide)) (by decide)
     (by decide) (by decide)).2.2⟩

/-- C3 (amended): on a permitted `erase(complete=False)` with
`sectors_read` unset and a fault-free medium, a `get_contents` pass runs
first (its bytes discarded) to establish `sectors_read = n`, and — when
those `n` sectors fit on the medium — exactly `n` sectors are overwritten
starting at offset 0, not at the payload offset: the loop seeks to sector
`0` and its writes land at bytes `0, 1, 512, 513, …`, as the event log
shows (followed by the Header rewrite on a `valid_nofs` device). -/
theorem C3_amended (d : Device) (n : Nat)
    (hvf : d.valid_nofs = true ∨ d.force_operations = true)
    (hsr : d.sectors_read = none)
    (hbr : d.handle.badReads = [])
    (hn : (Device.get_contents d).2.sectors_read = some n)
    (hfit : 512 * n ≤ d.handle.data.length) :
    (Device.erase d false).1 = some true ∧
    (Device.erase d false).2.sectors_read = some n ∧
    (Device.erase d false).2.handle.data =
      (if d.valid_nofs then
        NOFS_FIRST_SECTOR ++ ((List.replicate (n - 1) ERASED_SECTOR).flatten
          ++ d.handle.data.drop (512 * n))
       else (List.replicate n ERASED_SECTOR).flatten ++ d.handle.data.drop (512 * n)) ∧
    (Device.erase d false).2.handle.log =
      d.handle.log ++ Ev.seek 0 :: Ev.seek 0 :: (eraseEvents 0 n ++
        (if d.valid_nofs then [Ev.seek 0, Ev.write 0 NOFS_FIRST_SECTOR] else [])) := by
  obtain ⟨bs, hbs⟩ := Device.get_contents_ok d hbr
  have hok : (Device.get_contents d).1.isNone = false := by rw [hbs]; rfl
  obtain ⟨m, hm, hm1⟩ := Device.get_contents_sr_pos d hbr
  rw [hn] at hm
  obtain rfl : n = m := Option.some.inj hm
  rw [Device.erase_unfold_pass d hvf hsr hok]
  obtain ⟨p1, m1, hst⟩ := Device.get_contents_state d
  have hm1eq : n = m1 := by
    have h2 := congrArg Device.sectors_read hst
    rw [hn] at h2
    simpa using h2
  rw [hst, ← hm1eq]
  have hcount := erase_sectors_count
    ⟨d.handle.data, p1, d.handle.badReads, d.handle.log ++ [Ev.seek 0]⟩ n hm1 hfit
  simp only [Option.getD_some, hcount, Bool.true_and]
  obtain ⟨n', rfl⟩ : ∃ n', n = n' + 1 := ⟨n - 1, by omega⟩
  have hlen2 : ((List.replicate (n' + 1) ERASED_SECTOR).flatten ++
      d.handle.data.drop (512 * (n' + 1))).length = d.handle.data.length := by
    simp only [List.length_append, List.length_drop, flatten_replicate_length,
      ERASED_SECTOR_length]
    omega
  have hwh := Device.write_header_of_le
    ⟨(List.replicate (n' + 1) ERASED_SECTOR).flatten ++
        d.handle.data.drop (512 * (n' + 1)), 512 * (n' + 1), d.handle.badReads,
        (d.handle.log ++ [Ev.seek 0]) ++ Ev.seek 0 :: eraseEvents 0 (n' + 1)⟩
    (by simp only [hlen2]; omega)
  have hdrop2 : ((List.replicate (n' + 1) ERASED_SECTOR).flatten ++
      d.handle.data.drop (512 * (n' + 1))).drop 512 =
      (List.replicate n' ERASED_SECTOR).flatten ++ d.handle.data.drop (512 * (n' + 1)) := by
    rw [flatten_replicate_succ, List.append_assoc, ← ERASED_SECTOR_length, List.drop_left]
  cases hv : d.valid_nofs with
  | true =>
    simp only [eq_self_iff_true, if_true, hwh]
    simp only [hdrop2, Nat.add_sub_cancel]
    refine ⟨by trivial, by trivial, by trivial, ?_⟩
    simp [List.append_assoc]
  | false =>
    simp only [Bool.false_eq_true, if_false]
    refine ⟨by trivial, by trivial, by trivial, ?_⟩
    simp [List.append_assoc]

theorem C3_witness :
    devC3w.force_operations = true ∧ devC3w.sectors_read = none ∧
    devC3w.handle.badReads = [] ∧
    (Device.get_contents devC3w).2.sectors_read = some 1 ∧
    512 * 1 ≤ devC3w.handle.data.length ∧
    (Device.erase devC3w false).1 = some true ∧
    (Device.erase devC3w false).2.handle.log =
      devC3w.handle.log ++ Ev.seek 0 :: Ev.seek 0 :: (eraseEvents 0 1 ++
        (if devC3w.valid_nofs then [Ev.seek 0, Ev.write 0 NOFS_FIRST_SECTOR] else [])) :=
  ⟨rfl, rfl, rfl, by decide, by decide,
   (C3_amended devC3w 1 (Or.inr rfl) rfl rfl (by decide) (by decide)).1,
   (C3_amended devC3w 1 (Or.inr rfl) rfl rfl (by decide) (by decide)).2.2.2⟩

/-- Unfolding of `initialize_nofs` when not formatted and forced. -/
theorem Device.initialize_unfold (d : Device) (h1 : d.valid_nofs = false)
    (h2 : d.force_operations = true) :
    Device.initialize_nofs d =
      (let es := Device.erase_sectors d.handle 4 1
       let wh := Device.write_header es.2
       if wh.1 then (some true, { d with handle := wh.2 })
       else (none, { d with handle := wh.2 })) := by
  unfold Device.initialize_nofs
  simp [h1, h2]

/-- Constructing a `Device` on a fault-free medium whose first bytes are
the signature yields `valid_nofs = true`. -/
theorem Device.init_eval (dat2 : List Nat) (f : Bool)
    (h7 : dat2.take NOFS_SIGNATURE.length = NOFS_SIGNATURE) :
    Device.init dat2 [] f = some ⟨⟨dat2, 0, [], [Ev.seek 0]⟩, true, f, none⟩ := by
  simp [Device.init, DevState.readBytes, DevState.seekTo, h7]

/-- Any list starting with the freshly written first sector starts with the
signature. -/
theorem take_sig_of_first_sector (Y : List Nat) :
    (NOFS_FIRST_SECTOR ++ Y).take NOFS_SIGNATURE.length = NOFS_SIGNATURE := by
  rw [List.take_append_eq_append_take]
  have h1 : NOFS_FIRST_SECTOR.take NOFS_SIGNATURE.length = NOFS_SIGNATURE := by decide
  have h2 : NOFS_SIGNATURE.length - NOFS_FIRST_SECTOR.length = 0 := by decide
  rw [h1, h2]
  simp

/-- C5: `initialize_nofs()` on a fresh non-formatted forced device (at
least one sector large, fault-free) returns true; constructing a new
`Device` on the same medium then yields `valid_nofs = true` and
an empty `get_contents()` result. -/
theorem C5_format_roundtrip (dat : List Nat) (p0 : Nat) (lg : List Ev) (sr : Option Nat)
    (f : Bool) (hlen : 512 ≤ dat.length) :
    (Device.initialize_nofs ⟨⟨dat, p0, [], lg⟩, false, true, sr⟩).1 = some true ∧
    ((Device.init
        (Device.initialize_nofs ⟨⟨dat, p0, [], lg⟩, false, true, sr⟩).2.handle.data
        (Device.initialize_nofs ⟨⟨dat, p0, [], lg⟩, false, true, sr⟩).2.handle.badReads
        f).map
      (fun d2 => (d2.valid_nofs, (Device.get_contents d2).1))) = some (true, some []) := by
  have hpres := erase_sectors_pres (⟨dat, p0, [], lg⟩ : DevState) 4 1
  have hwh := Device.write_header_of_le
    (Device.erase_sectors (⟨dat, p0, [], lg⟩ : DevState) 4 1).2
    (by rw [hpres.1]; exact hlen)
  rw [Device.initialize_unfold _ rfl rfl]
  simp only [hwh, eq_self_iff_true, if_true]
  refine ⟨by trivial, ?_⟩
  have hbr : (Device.erase_sectors (⟨dat, p0, [], lg⟩ : DevState) 4 1).2.badReads = [] :=
    hpres.2
  rw [hbr]
  rw [Device.init_eval _ f (take_sig_of_first_sector _)]
  rw [Option.map_some']
  obtain ⟨g1, g2⟩ := Device.get_contents_of_header
    ((Device.erase_sectors (⟨dat, p0, [], lg⟩ : DevState) 4 1).2.data.drop 512) 0
    [Ev.seek 0] f none
  rw [g1]

theorem C5_witness :
    512 ≤ (List.replicate 1024 0 : List Nat).length ∧
    (Device.initialize_nofs ⟨⟨List.replicate 1024 0, 0, [], []⟩, false, true, none⟩).1
      = some true ∧
    ((Device.init
        (Device.initialize_nofs
          ⟨⟨List.replicate 1024 0, 0, [], []⟩, false, true, none⟩).2.handle.data
        (Device.initialize_nofs
          ⟨⟨List.replicate 1024 0, 0, [], []⟩, false, true, none⟩).2.handle.badReads
        true).map
      (fun d2 => (d2.valid_nofs, (Device.get_contents d2).1))) = some (true, some []) :=
  ⟨by decide,
   (C5_format_roundtrip (List.replicate 1024 0) 0 [] none true (by decide)).1,
   (C5_format_roundtrip (List.replicate 1024 0) 0 [] none true (by decide)).2⟩

/-- C10 (amended): whenever the two preconditions pass and the medium holds
at least one full sector (so the header write itself cannot fail),
`initialize_nofs()` returns true: the boolean result of the sector-erase
step is discarded, so success is reported even when every erase-step write
failed.  (When even the header write fails, the `IOError` propagates
instead of a `true` return — the counterexample.) -/
theorem C10_amended (d : Device) (h1 : d.valid_nofs = false) (h2 : d.force_operations = true)
    (hlen : 512 ≤ d.handle.data.length) :
    (Device.initialize_nofs d).1 = some true := by
  have hpres := erase_sectors_pres d.handle 4 1
  have hwh := Device.write_header_of_le (Device.erase_sectors d.handle 4 1).2
    (by rw [hpres.1]; exact hlen)
  rw [Device.initialize_unfold d h1 h2]
  simp [hwh]

/-- Witness for C10: on a one-sector forced device the erase step (which
starts at sector 1, past the end) performs zero writes — the log carries
only its seek — yet `initialize_nofs` returns true. -/
theorem C10_witness :
    devC10w.valid_nofs = false ∧ devC10w.force_operations = true ∧
    512 ≤ devC10w.handle.data.length ∧
    (Device.initialize_nofs devC10w).2.handle.log =
      [Ev.seek 512, Ev.seek 0, Ev.write 0 NOFS_FIRST_SECTOR] ∧
    (Device.initialize_nofs devC10w).1 = some true :=
  ⟨rfl, rfl, by decide, by decide, C10_amended devC10w rfl rfl (by decide)⟩
